import Mathlib

/-!
Shallow embedding of the core of the gdp-mcp-server repository:
the API key store (src/keystore.py), the inbound authorization
pipeline (src/server.py), the OAuth token manager (src/auth.py) and
the retry-once HTTP transport (src/client.py).

Machine words are modelled as Nat reduced mod 2^32 where the Python
code relies on 32-bit semantics (inside hashlib's SHA-256); Python
ints are otherwise unbounded, matching Nat/Int directly.  Python
dicts are modelled as insertion-ordered association lists with unique
keys.  Effects that the code obtains from its environment (the random
raw key from secrets.token_hex, the current wall-clock time, the HTTP
responses of the appliance and of the token endpoint) are passed as
explicit oracle arguments.
-/

set_option maxRecDepth 10000

/-! SHA-256, as used by keystore._hash_key via hashlib.sha256(raw_key.encode()).hexdigest().
All words are Nat kept below 2^32 by explicit reduction mod 4294967296. -/

def w32 (n : Nat) : Nat := n % 4294967296

def rotr (n x : Nat) : Nat := ((x >>> n) ||| (x <<< (32 - n))) % 4294967296

def shaCh (e f g : Nat) : Nat := (e &&& f) ^^^ ((e ^^^ 4294967295) &&& g)

def shaMaj (a b c : Nat) : Nat := (a &&& b) ^^^ (a &&& c) ^^^ (b &&& c)

def bigSig0 (x : Nat) : Nat := rotr 2 x ^^^ rotr 13 x ^^^ rotr 22 x

def bigSig1 (x : Nat) : Nat := rotr 6 x ^^^ rotr 11 x ^^^ rotr 25 x

def smallSig0 (x : Nat) : Nat := rotr 7 x ^^^ rotr 18 x ^^^ (x >>> 3)

def smallSig1 (x : Nat) : Nat := rotr 17 x ^^^ rotr 19 x ^^^ (x >>> 10)

def shaK : List Nat :=
  [1116352408, 1899447441, 3049323471, 3921009573, 961987163, 1508970993,
   2453635748, 2870763221, 3624381080, 310598401, 607225278, 1426881987,
   1925078388, 2162078206, 2614888103, 3248222580, 3835390401, 4022224774,
   264347078, 604807628, 770255983, 1249150122, 1555081692, 1996064986,
   2554220882, 2821834349, 2952996808, 3210313671, 3336571891, 3584528711,
   113926993, 338241895, 666307205, 773529912, 1294757372, 1396182291,
   1695183700, 1986661051, 2177026350, 2456956037, 2730485921, 2820302411,
   3259730800, 3345764771, 3516065817, 3600352804, 4094571909, 275423344,
   430227734, 506948616, 659060556, 883997877, 958139571, 1322822218,
   1537002063, 1747873779, 1955562222, 2024104815, 2227730452, 2361852424,
   2428436474, 2756734187, 3204031479, 3329325298]

structure H8 where
  a : Nat
  b : Nat
  c : Nat
  d : Nat
  e : Nat
  f : Nat
  g : Nat
  h : Nat
deriving DecidableEq

def initH : H8 :=
  ⟨1779033703, 3144134277, 1013904242, 2773480762, 1359893119, 2600822924, 528734635, 1541459225⟩

def be64 (n : Nat) : List Nat :=
  [(n >>> 56) % 256, (n >>> 48) % 256, (n >>> 40) % 256, (n >>> 32) % 256,
   (n >>> 24) % 256, (n >>> 16) % 256, (n >>> 8) % 256, n % 256]

def shaPad (msg : List Nat) : List Nat :=
  msg ++ [128] ++ List.replicate ((64 - (msg.length + 9) % 64) % 64) 0 ++ be64 (8 * msg.length)

def bytesToWords : List Nat → List Nat
  | a :: b :: c :: d :: rest => (a * 16777216 + b * 65536 + c * 256 + d) :: bytesToWords rest
  | _ => []

def schedExtend : Nat → List Nat → List Nat
  | 0, w => w
  | n + 1, w =>
      schedExtend n
        ((smallSig1 (w.getD 1 0) + w.getD 6 0 + smallSig0 (w.getD 14 0) + w.getD 15 0) % 4294967296 :: w)

def schedule (block : List Nat) : List Nat :=
  (schedExtend 48 (bytesToWords block).reverse).reverse

def roundStep (s : H8) (kw : Nat × Nat) : H8 :=
  let t1 := (s.h + bigSig1 s.e + shaCh s.e s.f s.g + kw.1 + kw.2) % 4294967296
  let t2 := (bigSig0 s.a + shaMaj s.a s.b s.c) % 4294967296
  { a := (t1 + t2) % 4294967296, b := s.a, c := s.b, d := s.c,
    e := (s.d + t1) % 4294967296, f := s.e, g := s.f, h := s.g }

def compress (s : H8) (block : List Nat) : H8 :=
  let r := (shaK.zip (schedule block)).foldl roundStep s
  { a := (s.a + r.a) % 4294967296, b := (s.b + r.b) % 4294967296,
    c := (s.c + r.c) % 4294967296, d := (s.d + r.d) % 4294967296,
    e := (s.e + r.e) % 4294967296, f := (s.f + r.f) % 4294967296,
    g := (s.g + r.g) % 4294967296, h := (s.h + r.h) % 4294967296 }

def chunksAux : Nat → List Nat → List (List Nat)
  | 0, _ => []
  | _, [] => []
  | n + 1, l => l.take 64 :: chunksAux n (l.drop 64)

def hexDigit (n : Nat) : Char := Char.ofNat (if n < 10 then 48 + n else 87 + n)

def hex8 (x : Nat) : String :=
  String.mk ([(x >>> 28) % 16, (x >>> 24) % 16, (x >>> 20) % 16, (x >>> 16) % 16,
              (x >>> 12) % 16, (x >>> 8) % 16, (x >>> 4) % 16, x % 16].map hexDigit)

def utf8Bytes (c : Nat) : List Nat :=
  if c < 128 then [c]
  else if c < 2048 then [192 + c / 64, 128 + c % 64]
  else if c < 65536 then [224 + c / 4096, 128 + (c / 64) % 64, 128 + c % 64]
  else [240 + c / 262144, 128 + (c / 4096) % 64, 128 + (c / 64) % 64, 128 + c % 64]

def strBytes (s : String) : List Nat :=
  (s.data.map (fun ch => utf8Bytes ch.toNat)).foldr List.append []

def sha256Bytes (bytes : List Nat) : H8 :=
  let padded := shaPad bytes
  (chunksAux padded.length padded).foldl compress initH

def sha256Hex (s : String) : String :=
  let fin := sha256Bytes (strBytes s)
  hex8 fin.a ++ hex8 fin.b ++ hex8 fin.c ++ hex8 fin.d ++
  hex8 fin.e ++ hex8 fin.f ++ hex8 fin.g ++ hex8 fin.h

/-! Python string helpers.  pyStrip is Python str.strip() with no arguments:
it removes the characters for which str.isspace holds from both ends.
removePrefixStr is Python str.removeprefix.  strStartsWith is str.startswith.
Python strings are sequences of code points, so character-level List Char
operations match Python slicing. -/

def pyIsSpace (c : Char) : Bool :=
  decide ((9 ≤ c.toNat ∧ c.toNat ≤ 13) ∨ (28 ≤ c.toNat ∧ c.toNat ≤ 31) ∨ c.toNat = 32 ∨
    c.toNat = 133 ∨ c.toNat = 160 ∨ c.toNat = 5760 ∨ (8192 ≤ c.toNat ∧ c.toNat ≤ 8202) ∨
    c.toNat = 8232 ∨ c.toNat = 8233 ∨ c.toNat = 8239 ∨ c.toNat = 8287 ∨ c.toNat = 12288)

def pyStrip (s : String) : String :=
  String.mk (((s.data.dropWhile pyIsSpace).reverse.dropWhile pyIsSpace).reverse)

def strStartsWith (s pre : String) : Bool := pre.data.isPrefixOf s.data

def removePrefixStr (s pre : String) : String :=
  if strStartsWith s pre then String.mk (s.data.drop pre.data.length) else s

/-! Association-list model of a Python dict (insertion-ordered, unique keys).
dictInsert models d[k] = v (replace in place if the key exists, else append),
dictGet models d.get(k), dictErase models del d[k]. -/

def dictGet {α : Type} (k : String) : List (String × α) → Option α
  | [] => none
  | p :: rest => if p.1 = k then some p.2 else dictGet k rest

def dictInsert {α : Type} (k : String) (v : α) : List (String × α) → List (String × α)
  | [] => [(k, v)]
  | p :: rest => if p.1 = k then (k, v) :: rest else p :: dictInsert k v rest

def dictErase {α : Type} (k : String) : List (String × α) → List (String × α)
  | [] => []
  | p :: rest => if p.1 = k then rest else p :: dictErase k rest

/-! The key store (src/keystore.py).  A store is the persisted JSON document
"keys": mapping from hex digest to record with fields user, created and
key_prefix (the latter rendered here as keyPrefix).  Every keystore operation
reloads the document, so the Store value passed in plays the role of the
on-disk state and the Store value returned is the state after the call. -/

structure KeyMeta where
  user : String
  created : String
  keyPrefix : String
deriving DecidableEq

structure Store where
  keys : List (String × KeyMeta)
deriving DecidableEq

/-- The function keystore._hash_key: SHA-256 hex digest of the UTF-8 bytes. -/
def hashKey (raw_key : String) : String := sha256Hex raw_key

/-- The function keystore._key_prefix: the first 8 characters of the raw key. -/
def rawKeyPrefix (raw_key : String) : String := String.mk (raw_key.data.take 8)

structure GenResult where
  key : String
  user : String
  created : String
  keyPrefix : String
deriving DecidableEq

/-- keystore.generate_key.  The random raw key from secrets.token_hex(32) and
the timestamp from datetime.now are oracle arguments raw_key and created. -/
def generate_key (raw_key user created : String) (store : Store) : GenResult × Store :=
  let hashed := hashKey raw_key
  let pre := rawKeyPrefix raw_key
  (⟨raw_key, user, created, pre⟩, ⟨dictInsert hashed ⟨user, created, pre⟩ store.keys⟩)

/-- keystore.validate_key: empty raw key is falsy and yields None; otherwise
look the SHA-256 digest up in the store. -/
def validate_key (raw_key : String) (store : Store) : Option KeyMeta :=
  if raw_key = "" then none
  else dictGet (hashKey raw_key) store.keys

structure ListEntry where
  keyPrefix : String
  user : String
  created : String
deriving DecidableEq

/-- keystore.list_keys: masked metadata of every record, in store order. -/
def list_keys (store : Store) : List ListEntry :=
  store.keys.map (fun p => ⟨p.2.keyPrefix, p.2.user, p.2.created⟩)

structure RevokeInfo where
  status : String
  keyPrefix : String
  user : String
deriving DecidableEq

structure RevokeOut where
  result : Option RevokeInfo
  store : Store
  wrote : Bool
deriving DecidableEq

/-- The scan inside keystore.revoke_key: first record whose key_prefix equals
the argument, in store iteration order. -/
def findMatch (kp : String) : List (String × KeyMeta) → Option (String × KeyMeta)
  | [] => none
  | p :: rest => if p.2.keyPrefix = kp then some p else findMatch kp rest

/-- keystore.revoke_key.  wrote records whether _save_store was called. -/
def revoke_key (kp : String) (store : Store) : RevokeOut :=
  match findMatch kp store.keys with
  | none => ⟨none, store, false⟩
  | some p => ⟨some ⟨"revoked", kp, p.2.user⟩, ⟨dictErase p.1 store.keys⟩, true⟩

/-- keystore.has_any_keys. -/
def has_any_keys (store : Store) : Bool := !store.keys.isEmpty

/-- Well-formedness of a Python dict rendered as an association list:
its keys are pairwise distinct.  Every store built by the keystore
operations from the empty store satisfies this. -/
abbrev NodupKeys (store : Store) : Prop := (store.keys.map Prod.fst).Nodup

/-! The inbound authorization pipeline (src/server.py). -/

/-- The set _ADMIN_ALLOWED_IPS of server.py. -/
def adminAllowedIPs : List String := ["127.0.0.1", "::1", "localhost", "172.17.0.1"]

/-- The function _is_localhost: request.client.host if present, else None,
tested for membership in the allow-list (None is never a member). -/
def isLocalhost (clientHost : Option String) : Bool :=
  match clientHost with
  | some host => adminAllowedIPs.contains host
  | none => false

inductive MWResult where
  | pass
  | reject401
deriving DecidableEq

/-- The token extraction in APIKeyMiddleware.dispatch:
auth_header.removeprefix("Bearer ").strip(). -/
def stripBearer (auth_header : String) : String :=
  pyStrip (removePrefixStr auth_header "Bearer ")

/-- APIKeyMiddleware.dispatch.  auth_header is request.headers.get with
default "" when the header is absent.  pass means call_next is invoked. -/
def dispatch (path auth_header : String) (store : Store) : MWResult :=
  if path = "/health" then .pass
  else if strStartsWith path "/admin" then .pass
  else
    match validate_key (stripBearer auth_header) store with
    | none => .reject401
    | some _ => .pass

inductive RouteTarget where
  | health
  | sse
  | messages
  | adminCreate
  | adminList
  | adminRevoke (seg : String)
deriving DecidableEq

inductive RouteResult where
  | target (t : RouteTarget)
  | methodNotAllowed
  | notFound
deriving DecidableEq

/-- Path parameter extraction for the delete-key route: the path template
matches exactly one further non-empty segment after the admin keys path. -/
def adminRevokeSeg (path : String) : Option String :=
  if strStartsWith path "/admin/keys/" then
    let seg := path.data.drop 12
    if seg ≠ [] ∧ ¬ seg.contains '/' then some (String.mk seg) else none
  else none

/-- The Starlette route table of _create_sse_app: a plain route matches its
exact path and declared methods (GET routes also answer HEAD), the messages
mount matches its prefix for every method, and the delete-key route binds
one path segment.  A path match with a method mismatch is a 405, no path
match is a 404. -/
def matchRoute (method path : String) : RouteResult :=
  if path = "/health" then
    if method = "GET" ∨ method = "HEAD" then .target .health else .methodNotAllowed
  else if path = "/sse" then
    if method = "GET" ∨ method = "HEAD" then .target .sse else .methodNotAllowed
  else if path = "/messages" ∨ strStartsWith path "/messages/" then .target .messages
  else if path = "/admin/keys" then
    if method = "POST" then .target .adminCreate
    else if method = "GET" ∨ method = "HEAD" then .target .adminList
    else .methodNotAllowed
  else
    match adminRevokeSeg path with
    | some seg => if method = "DELETE" then .target (.adminRevoke seg) else .methodNotAllowed
    | none => .notFound

inductive Decision where
  | admitted
  | unauthorized
  | forbidden
deriving DecidableEq

structure Request where
  method : String
  path : String
  clientHost : Option String
  authHeader : String
deriving DecidableEq

def isAdminTarget : RouteTarget → Bool
  | .adminCreate => true
  | .adminList => true
  | .adminRevoke _ => true
  | _ => false

/-- The composed inbound authorization decision: the middleware first
(rejecting with 401), then, for requests routed to one of the admin
handlers, the localhost guard those handlers all begin with (rejecting
with 403).  admitted means no authorization check rejected the request;
requests that match no route are rejected by routing (404/405), which is
not an authorization decision. -/
def authDecision (req : Request) (store : Store) : Decision :=
  match dispatch req.path req.authHeader store with
  | .reject401 => .unauthorized
  | .pass =>
    match matchRoute req.method req.path with
    | .target t =>
        if isAdminTarget t then
          if isLocalhost req.clientHost then .admitted else .forbidden
        else .admitted
    | _ => .admitted

/-- Does the request match one of the three admin routes? -/
def adminRouteMatched (method path : String) : Bool :=
  (decide (path = "/admin/keys") && (decide (method = "POST") || decide (method = "GET") || decide (method = "HEAD"))) ||
  ((adminRevokeSeg path).isSome && decide (method = "DELETE"))

/-- Modelled from the spec: the gateway decision stated route-class by
route-class in the spec's words, amended so that the loopback allow-list
guard applies to the requests that reach one of the admin handlers, while
admin-prefixed requests matching no admin route pass the middleware with
no credential check and are left to routing. -/
def specGatewayDecision (req : Request) (store : Store) : Decision :=
  if req.path = "/health" then .admitted
  else if strStartsWith req.path "/admin" then
    if adminRouteMatched req.method req.path then
      if isLocalhost req.clientHost then .admitted else .forbidden
    else .admitted
  else if (validate_key (stripBearer req.authHeader) store).isSome then .admitted
  else .unauthorized

/-! JSON values, as far as the handlers inspect them. -/

inductive JVal where
  | str (s : String)
  | num (n : Int)
  | null
  | other
deriving DecidableEq

/-- Python truthiness of a JSON value held in a variable ("" and 0 and null
are falsy; compound values are modelled as truthy). -/
def jvalTruthy : JVal → Bool
  | .str s => s != ""
  | .num n => n != 0
  | .null => false
  | .other => true

/-- The request body as the admin create-key handler sees it: request.json()
may raise (malformed), may yield a non-object (so .get raises), or yields
an object with fields. -/
inductive BodyInput where
  | malformed
  | nonObject
  | obj (fields : List (String × JVal))
deriving DecidableEq

/-- The try block of admin_create_key: body.get("user", "").strip(), where
any exception (unparseable body, .get on a non-object, .strip on a
non-string) leaves user = "". -/
def extractUser : BodyInput → String
  | .malformed => ""
  | .nonObject => ""
  | .obj fields =>
    match dictGet "user" fields with
    | some (.str s) => pyStrip s
    | some _ => ""
    | none => pyStrip ""

/-- The handler admin_create_key: localhost guard, then body validation,
then key generation.  Returns the HTTP status code and the store state
after the call. -/
def admin_create_key (clientHost : Option String) (body : BodyInput)
    (raw_key now : String) (store : Store) : Nat × Store :=
  if !(isLocalhost clientHost) then (403, store)
  else
    let user := extractUser body
    if user = "" then (400, store)
    else (201, (generate_key raw_key user now store).2)

/-! The OAuth token manager (src/auth.py).  Wall-clock time is an Int oracle
argument; the token endpoint's behavior for one acquisition attempt is an
AcquireOutcome oracle. -/

structure AuthState where
  token : Option JVal
  expiresAt : Int
deriving DecidableEq

def initAuthState : AuthState := ⟨none, 0⟩

inductive TokenRespBody where
  | malformed
  | fields (fs : List (String × JVal))
deriving DecidableEq

inductive AcquireOutcome where
  | transportError
  | httpResponse (status : Nat) (body : TokenRespBody)
deriving DecidableEq

inductive AcqError where
  | transport
  | httpStatus (status : Nat)
  | malformedBody
  | missingAccessToken
  | typeErr
deriving DecidableEq

/-- Result of a token-manager call: the returned token, or the raised error;
either way the AuthState after the call. -/
inductive AcqResult where
  | ok (tok : JVal) (st : AuthState)
  | err (e : AcqError) (st : AuthState)
deriving DecidableEq

/-- GDPAuth._acquire_token.  The POST either raises (transportError) or
returns a response; raise_for_status raises on any non-2xx status;
resp.json() may raise; expires_in defaults to 300; the access_token
assignment happens before the expiry computation, so a missing
access_token field leaves the state untouched while a non-numeric
expires_in raises only after self._token was already overwritten. -/
def acquire_token (now : Int) (o : AcquireOutcome) (st : AuthState) : AcqResult :=
  match o with
  | .transportError => .err .transport st
  | .httpResponse status body =>
    if status < 200 ∨ 300 ≤ status then .err (.httpStatus status) st
    else
      match body with
      | .malformed => .err .malformedBody st
      | .fields fs =>
        match dictGet "access_token" fs with
        | none => .err .missingAccessToken st
        | some tok =>
          match (dictGet "expires_in" fs).getD (.num 300) with
          | .num n => .ok tok ⟨some tok, now + n - 30⟩
          | _ => .err .typeErr ⟨some tok, st.expiresAt⟩

/-- The cache guard of GDPAuth.get_token: self._token and now < self._expires_at. -/
def cacheValid (now : Int) (st : AuthState) : Bool :=
  match st.token with
  | some v => jvalTruthy v && decide (now < st.expiresAt)
  | none => false

/-- GDPAuth.get_token. -/
def get_token (now : Int) (o : AcquireOutcome) (st : AuthState) : AcqResult :=
  if cacheValid now st then .ok (st.token.getD .null) st
  else acquire_token now o st

/-- GDPAuth.invalidate. -/
def invalidate (_st : AuthState) : AuthState := ⟨none, 0⟩

/-! The HTTP transport (src/client.py). -/

inductive RespBody where
  | empty
  | jsonBody (v : JVal)
  | textBody (s : String)
deriving DecidableEq

structure HttpResp where
  status : Nat
  body : RespBody
deriving DecidableEq

inductive Payload where
  | statusOnly (code : Nat)
  | fromJson (v : JVal)
  | fromText (code : Nat) (s : String)
deriving DecidableEq

inductive ReqResult where
  | authError (e : AcqError)
  | httpError (status : Nat)
  | success (p : Payload)
deriving DecidableEq

/-- The tail of GDPClient.request once the final response is chosen:
raise_for_status (non-2xx raises), then the 204/empty-body shortcut, then
resp.json() with the text[:2000] fallback. -/
def epilogue (r : HttpResp) : ReqResult :=
  if r.status < 200 ∨ 300 ≤ r.status then .httpError r.status
  else if r.status = 204 then .success (.statusOnly r.status)
  else
    match r.body with
    | .empty => .success (.statusOnly r.status)
    | .jsonBody v => .success (.fromJson v)
    | .textBody s => .success (.fromText r.status (String.mk (s.data.take 2000)))

/-- Observable actions of one GDPClient.request call, in order. -/
inductive Event where
  | sent (method resource : String) (tok : JVal)
  | invalidated
deriving DecidableEq

/-- GDPClient.request.  resp1 is the appliance's answer to the first send
and resp2 its answer to the retry (consulted only when the first answer is
a 401); acq1/acq2 and now1/now2 are the oracles for the (up to) two
get_token calls.  Returns the result, the token-manager state after the
call, and the trace of sends and invalidations. -/
def clientRequest (method resource : String) (now1 now2 : Int)
    (acq1 acq2 : AcquireOutcome) (resp1 resp2 : HttpResp)
    (st : AuthState) : ReqResult × AuthState × List Event :=
  match get_token now1 acq1 st with
  | .err e st1 => (.authError e, st1, [])
  | .ok tok1 st1 =>
    if resp1.status = 401 then
      match get_token now2 acq2 (invalidate st1) with
      | .err e st3 => (.authError e, st3, [.sent method resource tok1, .invalidated])
      | .ok tok2 st3 =>
          (epilogue resp2, st3,
           [.sent method resource tok1, .invalidated, .sent method resource tok2])
    else (epilogue resp1, st1, [.sent method resource tok1])

/-! Concrete inputs reused by witnesses and counterexamples. -/

def r64a : String := "aaaaaaaa00000000000000000000000000000000000000000000000000000000"

def r64b : String := "aaaaaaaa11111111111111111111111111111111111111111111111111111111"

def storeA : Store := (generate_key r64a "alice" "t0" ⟨[]⟩).2

def storeAB : Store := (generate_key r64b "bob" "t1" storeA).2

def stTok : AuthState := ⟨some (.str "tokA"), 1000⟩

/-! Association-list (Python dict) lemmas. -/

theorem dictGet_insert_self {α : Type} (k : String) (v : α) (l : List (String × α)) :
    dictGet k (dictInsert k v l) = some v := by
  induction l with
  | nil => simp [dictInsert, dictGet]
  | cons p rest ih =>
    by_cases h : p.1 = k
    · simp [dictInsert, dictGet, h]
    · simp [dictInsert, dictGet, h, ih]

theorem dictGet_eq_none {α : Type} (k : String) (l : List (String × α))
    (h : ∀ p ∈ l, p.1 ≠ k) : dictGet k l = none := by
  induction l with
  | nil => rfl
  | cons p rest ih =>
    have hp : p.1 ≠ k := h p (List.mem_cons_self p rest)
    simp only [dictGet, if_neg hp]
    exact ih fun q hq => h q (List.mem_cons_of_mem p hq)

theorem mem_of_mem_dictErase {α : Type} {k : String} {p : String × α} {l : List (String × α)}
    (h : p ∈ dictErase k l) : p ∈ l := by
  induction l with
  | nil => simp [dictErase] at h
  | cons q rest ih =>
    by_cases hq : q.1 = k
    · simp only [dictErase, if_pos hq] at h
      exact List.mem_cons_of_mem q h
    · simp only [dictErase, if_neg hq] at h
      rcases List.mem_cons.mp h with h1 | h2
      · exact h1 ▸ List.mem_cons_self q rest
      · exact List.mem_cons_of_mem q (ih h2)

theorem fst_ne_of_mem_dictErase {α : Type} {k : String} {p : String × α} {l : List (String × α)}
    (hnd : (l.map Prod.fst).Nodup) (h : p ∈ dictErase k l) : p.1 ≠ k := by
  induction l with
  | nil => simp [dictErase] at h
  | cons q rest ih =>
    rw [List.map_cons, List.nodup_cons] at hnd
    by_cases hq : q.1 = k
    · simp only [dictErase, if_pos hq] at h
      intro hpk
      apply hnd.1
      have hm : p.1 ∈ rest.map Prod.fst := List.mem_map_of_mem Prod.fst h
      rwa [hpk, ← hq] at hm
    · simp only [dictErase, if_neg hq] at h
      rcases List.mem_cons.mp h with h1 | h2
      · rw [h1]; exact hq
      · exact ih hnd.2 h2

theorem dictGet_erase_self {α : Type} {k : String} {l : List (String × α)}
    (hnd : (l.map Prod.fst).Nodup) : dictGet k (dictErase k l) = none := by
  apply dictGet_eq_none
  intro p hp
  exact fst_ne_of_mem_dictErase hnd hp

theorem findMatch_eq_none (kp : String) (l : List (String × KeyMeta))
    (h : ∀ p ∈ l, p.2.keyPrefix ≠ kp) : findMatch kp l = none := by
  induction l with
  | nil => rfl
  | cons p rest ih =>
    have hp : p.2.keyPrefix ≠ kp := h p (List.mem_cons_self p rest)
    simp only [findMatch, if_neg hp]
    exact ih fun q hq => h q (List.mem_cons_of_mem p hq)

/-! SHA-256 sanity: the embedding of hashlib.sha256 matches the published
test vectors for the empty message and for "abc". -/

theorem sha256Hex_empty_vector :
    sha256Hex "" = "e3b0c44298fc1c149afbf4c8996fb92427ae41e4649b934ca495991b7852b855" := by decide

theorem sha256Hex_abc_vector :
    sha256Hex "abc" = "ba7816bf8f01cfea414140de5dae2223b00361a396177a9cb410ff61f20015ad" := by decide

/-! Claim theorems for the key store. -/

/-- C3: for every store state, every nonempty user string and every nonempty
raw key produced by the issuance oracle, validating the raw key returned by
generate_key yields the record just stored, whose user field is that user. -/
theorem generate_validate_roundtrip (store : Store) (raw user created : String)
    (hu : user ≠ "") (hr : raw ≠ "") :
    validate_key raw (generate_key raw user created store).2 =
      some ⟨user, created, rawKeyPrefix raw⟩ := by
  simp only [generate_key, validate_key, if_neg hr]
  exact dictGet_insert_self _ _ _

theorem generate_validate_roundtrip_witness :
    validate_key r64a (generate_key r64a "alice" "t0" ⟨[]⟩).2 =
      some ⟨"alice", "t0", rawKeyPrefix r64a⟩ :=
  generate_validate_roundtrip ⟨[]⟩ r64a "alice" "t0" (by decide) (by decide)

/-- C8: validate_key returns none on the empty string, and on every raw key
whose SHA-256 digest is not a key of the stored mapping. -/
theorem validate_rejects_unknown (store : Store) (raw : String)
    (h : raw = "" ∨ dictGet (hashKey raw) store.keys = none) :
    validate_key raw store = none := by
  rcases h with h | h
  · simp [validate_key, h]
  · by_cases hr : raw = ""
    · simp [validate_key, hr]
    · simp [validate_key, if_neg hr, h]

theorem validate_rejects_unknown_witness :
    validate_key "" storeA = none ∧ validate_key "zzz" ⟨[]⟩ = none :=
  ⟨validate_rejects_unknown storeA "" (Or.inl rfl),
   validate_rejects_unknown ⟨[]⟩ "zzz" (Or.inr rfl)⟩

/-- C6: revoking a prefix that matches no stored record returns none, leaves
the store exactly as it was, and never calls _save_store. -/
theorem revoke_unknown_noop (store : Store) (kp : String)
    (h : ∀ p ∈ store.keys, p.2.keyPrefix ≠ kp) :
    revoke_key kp store = ⟨none, store, false⟩ := by
  simp [revoke_key, findMatch_eq_none kp store.keys h]

theorem revoke_unknown_noop_witness :
    revoke_key "zzzzzzzz" storeA = ⟨none, storeA, false⟩ :=
  revoke_unknown_noop storeA "zzzzzzzz" (by decide)

/-- C2 (amended): when revoke_key finds a record for the prefix, it succeeds
with that record's metadata, validating the raw key corresponding to the
revoked record afterwards returns none, and — provided the revoked record was
the only stored record with that prefix — list_keys no longer contains an
entry with the prefix. -/
theorem revoke_then_validate_none (store : Store) (kp raw hsh : String) (meta : KeyMeta)
    (hnd : NodupKeys store)
    (hfind : findMatch kp store.keys = some (hsh, meta))
    (hraw : hashKey raw = hsh) :
    (revoke_key kp store).result = some ⟨"revoked", kp, meta.user⟩ ∧
    validate_key raw (revoke_key kp store).store = none ∧
    ((∀ p ∈ store.keys, p.2.keyPrefix = kp → p = (hsh, meta)) →
      ∀ e ∈ list_keys (revoke_key kp store).store, e.keyPrefix ≠ kp) := by
  have hrev : revoke_key kp store =
      ⟨some ⟨"revoked", kp, meta.user⟩, ⟨dictErase hsh store.keys⟩, true⟩ := by
    simp [revoke_key, hfind]
  refine ⟨by rw [hrev], ?_, ?_⟩
  · rw [hrev]
    by_cases hr : raw = ""
    · simp [validate_key, hr]
    · simp only [validate_key, if_neg hr, hraw]
      exact dictGet_erase_self hnd
  · intro huniq e he
    rw [hrev] at he
    simp only [list_keys, List.mem_map] at he
    obtain ⟨p, hp, rfl⟩ := he
    intro hpk
    have hmem := mem_of_mem_dictErase hp
    have heq := huniq p hmem hpk
    have hfst := fst_ne_of_mem_dictErase hnd hp
    rw [heq] at hfst
    exact hfst rfl

theorem revoke_then_validate_none_witness :
    validate_key r64a (revoke_key "aaaaaaaa" storeA).store = none ∧
    (∀ e ∈ list_keys (revoke_key "aaaaaaaa" storeA).store, e.keyPrefix ≠ "aaaaaaaa") := by
  have h := revoke_then_validate_none storeA "aaaaaaaa" r64a (hashKey r64a)
    ⟨"alice", "t0", "aaaaaaaa"⟩ (by decide) (by decide) rfl
  exact ⟨h.2.1, h.2.2 (by decide)⟩

/-- C2 counterexample: two issued keys can share the 8-character prefix;
revoking the prefix then succeeds (removing the first match) while
list_keys still contains an entry with that prefix, so the claim as stated
fails on this store. -/
theorem revoke_prefix_collision_counterexample :
    (revoke_key "aaaaaaaa" storeAB).result.isSome = true ∧
    (∃ e ∈ list_keys (revoke_key "aaaaaaaa" storeAB).store, e.keyPrefix = "aaaaaaaa") := by
  decide

/-! Claim theorems for the token manager. -/

/-- C5 (amended): an acquisition at time T whose 2xx response carries an
access token and expires_in = 300 (or no expires_in field, defaulting to
300) sets expiresAt = T + 270; provided the acquired access-token value is
truthy (e.g. a non-empty string), get_token returns the cached token for
every call strictly before T + 270 and performs re-acquisition for every
call at or after T + 270. -/
theorem token_expiry_window (T : Int) (status : Nat) (fs : List (String × JVal))
    (tok : JVal) (st : AuthState)
    (hst : ¬ (status < 200 ∨ 300 ≤ status))
    (hexp : dictGet "expires_in" fs = some (.num 300) ∨ dictGet "expires_in" fs = none)
    (htok : dictGet "access_token" fs = some tok) :
    acquire_token T (.httpResponse status (.fields fs)) st = .ok tok ⟨some tok, T + 270⟩ ∧
    (jvalTruthy tok = true →
      ∀ (t : Int) (o2 : AcquireOutcome),
        (t < T + 270 → get_token t o2 ⟨some tok, T + 270⟩ = .ok tok ⟨some tok, T + 270⟩) ∧
        (T + 270 ≤ t → get_token t o2 ⟨some tok, T + 270⟩ = acquire_token t o2 ⟨some tok, T + 270⟩)) := by
  have harith : T + 300 - 30 = T + 270 := by ring
  have hacq : acquire_token T (.httpResponse status (.fields fs)) st = .ok tok ⟨some tok, T + 270⟩ := by
    rcases hexp with h | h <;>
      simp [acquire_token, if_neg hst, htok, h, harith]
  refine ⟨hacq, ?_⟩
  intro htr t o2
  constructor
  · intro hlt
    have hcv : cacheValid t ⟨some tok, T + 270⟩ = true := by
      simp [cacheValid, htr, hlt]
    simp [get_token, hcv]
  · intro hge
    have hnlt : ¬ t < T + 270 := by omega
    have hcv : cacheValid t ⟨some tok, T + 270⟩ = false := by
      simp [cacheValid, hnlt]
    simp [get_token, hcv]

theorem token_expiry_window_witness :
    acquire_token 0 (.httpResponse 200 (.fields [("access_token", .str "tokA"), ("expires_in", .num 300)]))
        initAuthState = .ok (.str "tokA") ⟨some (.str "tokA"), 270⟩ ∧
    get_token 100 .transportError ⟨some (.str "tokA"), 270⟩ =
      .ok (.str "tokA") ⟨some (.str "tokA"), 270⟩ ∧
    get_token 270 .transportError ⟨some (.str "tokA"), 270⟩ =
      acquire_token 270 .transportError ⟨some (.str "tokA"), 270⟩ := by
  have h := token_expiry_window 0 200 [("access_token", .str "tokA"), ("expires_in", .num 300)]
    (.str "tokA") initAuthState (by decide) (Or.inl rfl) rfl
  exact ⟨h.1, (h.2 (by decide) 100 .transportError).1 (by decide),
    (h.2 (by decide) 270 .transportError).2 (by decide)⟩

/-- C5 counterexample: a response whose access_token is the empty string is
acquired at T = 0 with expires_in = 300, so expiresAt = 270, yet a get_token
call at time 1 (strictly before 270) does not return the cached token: the
empty string is falsy, so the guard fails and acquisition runs again (here
erring), contradicting the claim for this acquisition. -/
theorem token_expiry_window_counterexample :
    acquire_token 0 (.httpResponse 200 (.fields [("access_token", .str ""), ("expires_in", .num 300)]))
        initAuthState = .ok (.str "") ⟨some (.str ""), 270⟩ ∧
    get_token 1 .transportError ⟨some (.str ""), 270⟩ =
      .err .transport ⟨some (.str ""), 270⟩ := by decide

/-- C7: an acquisition that fails with a transport error, a non-2xx status,
a malformed body or a body lacking the access_token field leaves the cached
credential state exactly as it was, and the error propagates out of
get_token whenever get_token had to acquire. -/
theorem acquisition_failure_preserves_state (now : Int) (o : AcquireOutcome)
    (st st1 : AuthState) (e : AcqError)
    (hacq : acquire_token now o st = .err e st1)
    (he : e = .transport ∨ (∃ n, e = .httpStatus n) ∨ e = .malformedBody ∨ e = .missingAccessToken) :
    st1 = st ∧ (cacheValid now st = false → get_token now o st = .err e st) := by
  have hne : e ≠ .typeErr := by
    rcases he with h | ⟨n, h⟩ | h | h <;> subst h <;> simp
  have hst : st1 = st := by
    rcases o with _ | ⟨status, body⟩
    · simp [acquire_token] at hacq
      exact hacq.2.symm
    · by_cases hs : status < 200 ∨ 300 ≤ status
      · simp [acquire_token, hs] at hacq
        exact hacq.2.symm
      · rcases body with _ | fs
        · simp [acquire_token, hs] at hacq
          exact hacq.2.symm
        · rcases htok : dictGet "access_token" fs with _ | tok
          · simp [acquire_token, hs, htok] at hacq
            exact hacq.2.symm
          · rcases hexp : (dictGet "expires_in" fs).getD (.num 300) with s | n | _ | _ <;>
              simp [acquire_token, hs, htok, hexp] at hacq <;>
              exact absurd hacq.1.symm hne
  refine ⟨hst, ?_⟩
  intro hcv
  rw [hst] at hacq
  simp [get_token, hcv, hacq]

theorem acquisition_failure_preserves_state_witness :
    get_token 200 .transportError ⟨some (.str "old"), 100⟩ =
      .err .transport ⟨some (.str "old"), 100⟩ := by
  have h := acquisition_failure_preserves_state 200 .transportError
    ⟨some (.str "old"), 100⟩ ⟨some (.str "old"), 100⟩ .transport rfl (Or.inl rfl)
  exact h.2 (by decide)

/-! Claim theorem for the transport retry protocol. -/

/-- C4: when the first attempt's token was obtained, a 401 first response
makes the transport invalidate the cache, obtain a token again, resend the
identical request exactly once with the new credential, and return exactly
what the second response produces through the shared response epilogue;
any non-401 first response (including 5xx) is never retried: exactly one
send happens and its response is surfaced. -/
theorem retry_once_on_401 (method resource : String) (now1 now2 : Int)
    (acq1 acq2 : AcquireOutcome) (resp1 resp2 : HttpResp)
    (st st1 : AuthState) (tok1 : JVal)
    (h1 : get_token now1 acq1 st = .ok tok1 st1) :
    (∀ (tok2 : JVal) (st3 : AuthState), resp1.status = 401 →
        get_token now2 acq2 (invalidate st1) = .ok tok2 st3 →
        clientRequest method resource now1 now2 acq1 acq2 resp1 resp2 st =
          (epilogue resp2, st3,
           [.sent method resource tok1, .invalidated, .sent method resource tok2])) ∧
    (resp1.status ≠ 401 →
        clientRequest method resource now1 now2 acq1 acq2 resp1 resp2 st =
          (epilogue resp1, st1, [.sent method resource tok1])) := by
  constructor
  · intro tok2 st3 h401 h2
    simp [clientRequest, h1, h401, h2]
  · intro h401
    simp [clientRequest, h1, h401]

theorem retry_once_on_401_witness :
    clientRequest "GET" "res" 0 5
        .transportError (.httpResponse 200 (.fields [("access_token", .str "tokB")]))
        ⟨401, .empty⟩ ⟨200, .jsonBody (.str "ok")⟩ stTok =
      (.success (.fromJson (.str "ok")), ⟨some (.str "tokB"), 275⟩,
       [.sent "GET" "res" (.str "tokA"), .invalidated, .sent "GET" "res" (.str "tokB")]) ∧
    clientRequest "GET" "res" 0 5 .transportError .transportError
        ⟨500, .empty⟩ ⟨200, .empty⟩ stTok =
      (.httpError 500, stTok, [.sent "GET" "res" (.str "tokA")]) := by
  constructor
  · exact (retry_once_on_401 "GET" "res" 0 5 .transportError
      (.httpResponse 200 (.fields [("access_token", .str "tokB")]))
      ⟨401, .empty⟩ ⟨200, .jsonBody (.str "ok")⟩ stTok stTok (.str "tokA") (by decide)).1
      (.str "tokB") ⟨some (.str "tokB"), 275⟩ rfl (by decide)
  · exact (retry_once_on_401 "GET" "res" 0 5 .transportError .transportError
      ⟨500, .empty⟩ ⟨200, .empty⟩ stTok stTok (.str "tokA") (by decide)).2 (by decide)

/-! Helper lemmas about path prefixes and the authorization pipeline. -/

theorem startsWith_trans {p a b : String} (h1 : strStartsWith p a = true)
    (h2 : strStartsWith a b = true) : strStartsWith p b = true := by
  simp only [strStartsWith, List.isPrefixOf_iff_prefix] at h1 h2 ⊢
  exact h2.trans h1

theorem admin_not_messages {p : String} (h : strStartsWith p "/admin" = true) :
    strStartsWith p "/messages/" = false := by
  by_contra hc
  rw [Bool.not_eq_false] at hc
  simp only [strStartsWith, List.isPrefixOf_iff_prefix] at h hc
  rcases List.prefix_or_prefix_of_prefix h hc with h1 | h1 <;> revert h1 <;> decide

theorem startsWith_admin_of_revokeSeg {p seg : String}
    (h : adminRevokeSeg p = some seg) : strStartsWith p "/admin" = true := by
  by_cases hg : strStartsWith p "/admin/keys/" = true
  · exact startsWith_trans hg (by decide)
  · simp [adminRevokeSeg, hg] at h

theorem authDecision_health (method : String) (clientHost : Option String)
    (authHeader : String) (store : Store) :
    authDecision ⟨method, "/health", clientHost, authHeader⟩ store = .admitted := by
  by_cases hm : method = "GET" ∨ method = "HEAD" <;>
    simp +decide [authDecision, dispatch, matchRoute, hm, isAdminTarget]

theorem authDecision_admin (method path : String) (clientHost : Option String)
    (authHeader : String) (store : Store)
    (h2 : strStartsWith path "/admin" = true) :
    authDecision ⟨method, path, clientHost, authHeader⟩ store =
      (if adminRouteMatched method path then
        (if isLocalhost clientHost then .admitted else .forbidden)
      else .admitted) := by
  have h1 : path ≠ "/health" := by
    intro hp; subst hp; revert h2; decide
  have h3 : path ≠ "/sse" := by
    intro hp; subst hp; revert h2; decide
  have h4 : path ≠ "/messages" := by
    intro hp; subst hp; revert h2; decide
  have h5 : strStartsWith path "/messages/" = false := admin_not_messages h2
  by_cases h7 : path = "/admin/keys"
  · subst h7
    by_cases hm1 : method = "POST"
    · simp +decide [authDecision, dispatch, matchRoute, adminRouteMatched,
        isAdminTarget, hm1]
    · by_cases hm2 : method = "GET" ∨ method = "HEAD"
      · rcases hm2 with hm2 | hm2 <;>
          simp +decide [authDecision, dispatch, matchRoute, adminRouteMatched,
            isAdminTarget, hm1, hm2]
      · have hg : method ≠ "GET" := fun hh => hm2 (Or.inl hh)
        have hh : method ≠ "HEAD" := fun hh => hm2 (Or.inr hh)
        simp +decide [authDecision, dispatch, matchRoute, adminRouteMatched,
          isAdminTarget, hm1, hg, hh]
  · rcases hseg : adminRevokeSeg path with _ | seg
    · simp +decide [authDecision, dispatch, matchRoute, adminRouteMatched,
        isAdminTarget, h1, h2, h3, h4, h5, h7, hseg]
    · by_cases hm : method = "DELETE" <;>
        simp +decide [authDecision, dispatch, matchRoute, adminRouteMatched,
          isAdminTarget, h1, h2, h3, h4, h5, h7, hseg, hm]

theorem authDecision_protected (method path : String) (clientHost : Option String)
    (authHeader : String) (store : Store)
    (h1 : path ≠ "/health") (h2 : strStartsWith path "/admin" = false) :
    authDecision ⟨method, path, clientHost, authHeader⟩ store =
      (if (validate_key (stripBearer authHeader) store).isSome then .admitted
       else .unauthorized) := by
  have h7 : path ≠ "/admin/keys" := by
    intro hp; subst hp; revert h2; decide
  have h8 : adminRevokeSeg path = none := by
    rcases hseg : adminRevokeSeg path with _ | seg
    · rfl
    · have := startsWith_admin_of_revokeSeg hseg
      rw [h2] at this
      exact absurd this (by decide)
  rcases hv : validate_key (stripBearer authHeader) store with _ | m
  · simp [authDecision, dispatch, h1, h2, hv]
  · by_cases h3 : path = "/sse"
    · subst h3
      by_cases hm : method = "GET" ∨ method = "HEAD" <;>
        simp +decide [authDecision, dispatch, matchRoute, hm, hv, isAdminTarget]
    · by_cases h4 : path = "/messages" ∨ strStartsWith path "/messages/" = true
      · simp +decide [authDecision, dispatch, matchRoute, h1, h2, h3, h4, hv, isAdminTarget]
      · simp +decide [authDecision, dispatch, matchRoute, h1, h2, h3, h4, h7, h8, hv,
          isAdminTarget]

/-! Claim theorems for the authorization gateway and admin handler. -/

/-- C1 (amended): the inbound authorization decision evaluates in precedence
order: the health-check path is always admitted with no credential check;
a request with the admin path prefix bypasses the credential check, and if
it matches one of the admin routes it is admitted iff its originating
address is in the static allow-list and rejected with a forbidden decision
otherwise, while an admin-prefixed request matching no admin route receives
no authorization rejection at all (it fails in routing); every other
request is admitted iff stripping the Bearer scheme prefix and surrounding
whitespace from the Authorization header and validating against the key
store returns a record, and is rejected with an unauthorized decision
otherwise. -/
theorem gateway_decision_characterization (req : Request) (store : Store) :
    authDecision req store = specGatewayDecision req store := by
  obtain ⟨method, path, clientHost, authHeader⟩ := req
  by_cases h1 : path = "/health"
  · subst h1
    rw [authDecision_health]
    simp [specGatewayDecision]
  · by_cases h2 : strStartsWith path "/admin" = true
    · rw [authDecision_admin method path clientHost authHeader store h2]
      simp [specGatewayDecision, h1, h2]
    · rw [Bool.not_eq_true] at h2
      rw [authDecision_protected method path clientHost authHeader store h1 h2]
      simp [specGatewayDecision, h1, h2]

/-- C1 counterexample: a request whose path has the admin prefix but matches
no admin route is admitted by the authorization pipeline with no credential
check and no allow-list check, even from a non-allow-listed address, instead
of being rejected with a forbidden decision as the claim requires. -/
theorem gateway_admin_path_counterexample :
    authDecision ⟨"GET", "/admin/status", some "203.0.113.9", ""⟩ ⟨[]⟩ = .admitted ∧
    strStartsWith "/admin/status" "/admin" = true ∧
    isLocalhost (some "203.0.113.9") = false := by decide

/-- C9: on a protected route, a request whose Authorization header does not
carry the Bearer scheme prefix is still admitted when the header value,
after the no-op prefix strip and the whitespace trim, equals an issued raw
key: the scheme prefix is optional at the middleware boundary. -/
theorem rawkey_without_scheme_admitted (req : Request) (store : Store)
    (meta : KeyMeta) (raw : String)
    (hp1 : req.path ≠ "/health")
    (hp2 : strStartsWith req.path "/admin" = false)
    (hb : strStartsWith req.authHeader "Bearer " = false)
    (hs : pyStrip req.authHeader = raw)
    (hv : validate_key raw store = some meta) :
    authDecision req store = .admitted := by
  obtain ⟨method, path, clientHost, authHeader⟩ := req
  have htok : stripBearer authHeader = raw := by
    simp only [stripBearer, removePrefixStr, hb] at hs ⊢
    simpa using hs
  rw [authDecision_protected method path clientHost authHeader store hp1 hp2]
  rw [htok, hv]
  rfl

theorem rawkey_without_scheme_admitted_witness :
    authDecision ⟨"GET", "/sse", some "10.0.0.5", r64a⟩ storeA = .admitted :=
  rawkey_without_scheme_admitted ⟨"GET", "/sse", some "10.0.0.5", r64a⟩ storeA
    ⟨"alice", "t0", "aaaaaaaa"⟩ r64a (by decide) (by decide) (by decide) (by decide)
    (by decide)

/-- C10: for an admin issue-key request from an allow-listed address whose
body is unparseable, lacks the user field, or carries a user value that is
empty or whitespace-only after trimming, the handler returns 400 and the
store is unchanged: no key is generated. -/
theorem create_key_rejects_bad_body (clientHost : Option String) (body : BodyInput)
    (raw now : String) (store : Store)
    (hloc : isLocalhost clientHost = true)
    (hbad : body = .malformed ∨
            (∃ fs, body = .obj fs ∧ dictGet "user" fs = none) ∨
            (∃ fs s, body = .obj fs ∧ dictGet "user" fs = some (.str s) ∧ pyStrip s = "")) :
    admin_create_key clientHost body raw now store = (400, store) := by
  have huser : extractUser body = "" := by
    rcases hbad with h | ⟨fs, hb, hf⟩ | ⟨fs, s, hb, hf, hst⟩
    · subst h; rfl
    · subst hb; simp [extractUser, hf]; rfl
    · subst hb; simp [extractUser, hf, hst]
  simp [admin_create_key, hloc, huser]

theorem create_key_rejects_bad_body_witness :
    admin_create_key (some "127.0.0.1") (.obj [("user", .str "   ")]) r64a "t0" ⟨[]⟩ =
      (400, (⟨[]⟩ : Store)) :=
  create_key_rejects_bad_body (some "127.0.0.1") (.obj [("user", .str "   ")]) r64a "t0" ⟨[]⟩
    (by decide)
    (Or.inr (Or.inr ⟨[("user", .str "   ")], "   ", rfl, rfl, by decide⟩))
